import Mathlib

/-!
Verification of the serial_protocol framing stack.

Shallow embedding of the Python package `serial_protocol` (modules
`cobs.py`, `tlv.py`, `packet.py`, `utils.py`).  Byte arrays are modelled
as `List Nat` (each element a byte value), Python exceptions as an
explicit error type carried in `Except`, and the stateful COBS encoder
loop as a fold over the input with the same back-patching state as the
source.  Python `float` values are modelled at the IEEE-754 bit-pattern
level: a float is identified with its little-endian byte encoding at the
precision in use, and `struct.pack`/`struct.unpack` become the identity
on those bytes (IEEE rounding itself is outside the embedding).
-/

namespace SerialProtocol

/-- Python exception classes that the claims distinguish. -/
inductive PyError where
  | typeError (msg : String)
  | valueError (msg : String)
  | indexError (msg : String)
deriving DecidableEq

instance {ε α : Type} [DecidableEq ε] [DecidableEq α] : DecidableEq (Except ε α) :=
  fun x y =>
  match x, y with
  | .ok a, .ok b => decidable_of_iff (a = b) (by simp)
  | .error a, .error b => decidable_of_iff (a = b) (by simp)
  | .ok _, .error _ => isFalse (fun h => Except.noConfusion h)
  | .error _, .ok _ => isFalse (fun h => Except.noConfusion h)

/-- Little-endian byte-sequence to integer, `int.from_bytes(value, "little")`. -/
def bytesToNatLE : List Nat → Nat
  | [] => 0
  | b :: bs => b + 256 * bytesToNatLE bs

/-- Little-endian integer to byte-sequence of a fixed width,
`value.to_bytes(width, byteorder="little")`. -/
def natToBytesLE : Nat → Nat → List Nat
  | 0, _ => []
  | w + 1, v => v % 256 :: natToBytesLE w (v / 256)

/-- `utils.ValueFormat`: the closed catalog of fixed-width numeric formats. -/
inductive ValueFormat where
  | UINT8 | UINT16 | UINT32 | FLOAT32 | FLOAT64
deriving DecidableEq

namespace ValueFormat

/-- Number of bytes used to store the value (first tuple component in the source). -/
def num_bytes : ValueFormat → Nat
  | UINT8 => 1
  | UINT16 => 2
  | UINT32 => 4
  | FLOAT32 => 4
  | FLOAT64 => 8

/-- Category of the format, `"uint"` or `"float"` (second tuple component). -/
def category : ValueFormat → String
  | UINT8 => "uint"
  | UINT16 => "uint"
  | UINT32 => "uint"
  | FLOAT32 => "float"
  | FLOAT64 => "float"

/-- `ValueFormat.is_uint`. -/
def is_uint (f : ValueFormat) : Bool := f.category == "uint"

/-- `ValueFormat.is_float`. -/
def is_float (f : ValueFormat) : Bool := f.category == "float"

/-- `ValueFormat.max_value`: `2**(num_bytes*8) - 1`.  The source returns
`None` for float formats; every use site is guarded by `is_float`, so the
value returned for floats here is never observed. -/
def max_value (f : ValueFormat) : Nat := 2 ^ (f.num_bytes * 8) - 1

end ValueFormat

/-- A Python `float`, modelled by its IEEE-754 little-endian byte encoding
at the precision in use (the bit-level `struct` conversion is treated as an
opaque bijection between floats and byte patterns of the format's width). -/
structure PyFloat where
  bytes : List Nat
deriving DecidableEq

/-- The dynamic type of a value passed through the TLV / packet layers:
Python `int`, `float`, or `bytearray`. -/
inductive PyValue where
  | int (v : Nat)
  | float (v : PyFloat)
  | bytes (b : List Nat)
deriving DecidableEq

/-- One hexadecimal digit, lower case. -/
def hexDigit (n : Nat) : Char :=
  if n < 10 then Char.ofNat (48 + n) else Char.ofNat (87 + n)

/-- Two-digit lower-case hex rendering of one byte (Python `"{:02x}".format(x)`
for `x < 256`, the only values a bytearray element can take). -/
def byteToHex (b : Nat) : String :=
  String.mk [hexDigit (b / 16 % 16), hexDigit (b % 16)]

/-- `utils.bytearray_to_hexstring` with the default `use_0x_format=True`. -/
def bytearray_to_hexstring (data : List Nat) : String :=
  String.intercalate " " (data.map (fun x => "0x" ++ byteToHex x))

/-- `utils.int_to_bytearray` (all call sites in the package use the default
`byteorder="little"`).  Negative inputs cannot arise in the embedding since
values are `Nat`, so the lower bound of the range check is implicit. -/
def int_to_bytearray (value : Nat) (format_ : ValueFormat) : Except PyError (List Nat) :=
  if format_.is_float then
    .error (.valueError "The format cannot be FLOAT32 or FLOAT64.")
  else if value ≤ format_.max_value then
    .ok (natToBytesLE format_.num_bytes value)
  else
    .error (.valueError ("Value must be in range [0, " ++ toString format_.max_value ++ "]."))

/-- `utils.bytearray_to_int` with the default `byteorder="little"`
(the `isinstance` type check is enforced statically by the embedding). -/
def bytearray_to_int (value : List Nat) : Nat := bytesToNatLE value

/-- `utils.float_to_bytearray` with the default `byteorder="little"`:
`struct.pack` of a float at its own precision is the float's byte pattern. -/
def float_to_bytearray (value : PyFloat) (precision : ValueFormat) : Except PyError (List Nat) :=
  if precision.is_float then .ok value.bytes
  else .error (.valueError "The precision must be FLOAT32 or FLOAT64.")

/-- `utils.bytearray_to_float` with the default `byteorder="little"`:
`struct.unpack` turns the byte pattern back into the float it denotes. -/
def bytearray_to_float (value : List Nat) (precision : ValueFormat) : Except PyError PyFloat :=
  if precision.is_float then .ok ⟨value⟩
  else .error (.valueError "The precision must be FLOAT32 or FLOAT64.")

/-! ## COBS frame codec (`cobs.py`) -/

/-- One iteration of the loop body of `cobs.encode_bytearray`: the state is
`(encoded, zero_marker_pos, zero_block_len)` exactly as in the source. -/
def cobsStep : List Nat × Nat × Nat → Nat → List Nat × Nat × Nat
  | (encoded, zero_marker_pos, zero_block_len), byte =>
    -- Check to see if we need to add an extra byte
    let st :=
      if zero_block_len = 0xff then
        let e := (encoded.set zero_marker_pos 0xff) ++ [0x00]
        (e, e.length - 1, 1)
      else (encoded, zero_marker_pos, zero_block_len)
    match st with
    | (encoded, zero_marker_pos, zero_block_len) =>
      -- Now check value of the byte
      if byte = 0x00 then
        let e := (encoded.set zero_marker_pos zero_block_len) ++ [0x00]
        (e, e.length - 1, 1)
      else (encoded ++ [byte], zero_marker_pos, zero_block_len + 1)

/-- `cobs.encode_bytearray` (the `isinstance` check is static here). -/
def encode_bytearray (data : List Nat) : Except PyError (List Nat) :=
  if data.length = 0 then
    .error (.valueError "Input data must not be empty.")
  else if data.length = 1 ∧ data.getD 0 0 = 0x00 then
    .ok [0x01, 0x00] -- special case
  else
    match List.foldl cobsStep ([0x00], 0, 1) data with
    | (encoded, zero_marker_pos, zero_block_len) =>
      -- Handle the final marker, then the frame delimiter
      .ok ((encoded.set zero_marker_pos zero_block_len) ++ [0x00])

/-- The `while idx < len(data) - 1` loop of `cobs.decode_bytearray`. -/
def decodeLoop (data : List Nat) (idx : Nat) (decoded : List Nat) :
    Except PyError (List Nat) :=
  if h : idx < data.length - 1 then
    -- first byte will be number of bytes until next delimiter
    let bytes_until_delim := data.getD idx 0
    -- Ensure zero marker does not point beyond the available data
    if bytes_until_delim + idx ≥ data.length then
      .error (.valueError "Invalid COBS-encoded data: invalid zero marker")
    else
      -- Move to data section and copy the literal bytes of this block
      let decoded := decoded ++ (data.drop (idx + 1)).take (bytes_until_delim - 1)
      let idx' := idx + 1 + (bytes_until_delim - 1)
      -- Insert zero unless this was a max-length block (0xff)
      -- or at the end of the data
      let overhead_byte := bytes_until_delim = 0xff
      let data_left_to_decode := idx' < data.length - 1
      if ¬overhead_byte ∧ data_left_to_decode then
        decodeLoop data idx' (decoded ++ [0x00])
      else
        decodeLoop data idx' decoded
  else
    .ok decoded
termination_by data.length - idx
decreasing_by all_goals omega

/-- `cobs.decode_bytearray` (the `isinstance` check is static here). -/
def decode_bytearray (data : List Nat) : Except PyError (List Nat) :=
  if data.length < 2 then
    .error (.valueError "Input data must have at least two elements.")
  else if data.getLast? ≠ some 0x00 then
    .error (.valueError "Invalid COBS-encoded data: missing final frame delimiter (0x00)")
  else if data.count 0x00 > 1 then
    .error (.valueError "Invalid COBS-encoded data: more than one frame delimiter (0x00)")
  else if data.length = 2 ∧ data.getD 0 0 = 0x01 then
    .ok [0x00] -- Single zero encoded - special case
  else
    decodeLoop data 0 []

/-! ## Structural characterisation of the COBS encoder

`cobsFinish cur rest` is the output still to be produced by the encoder
loop when the literal bytes `cur` of the current block have been consumed
and `rest` of the input remains: a run of blocks `marker :: literals`,
closed by the final marker block and the frame delimiter. -/

def cobsFinish (cur rest : List Nat) : List Nat :=
  match rest with
  | [] => (cur.length + 1) :: cur ++ [0x00]
  | b :: rest' =>
    if h255 : cur.length + 1 = 0xff then
      0xff :: cur ++ cobsFinish [] (b :: rest')
    else if hb : b = 0x00 then
      (cur.length + 1) :: cur ++ cobsFinish [] rest'
    else
      cobsFinish (cur ++ [b]) rest'
termination_by (rest.length, cur.length)
decreasing_by
  all_goals simp only [List.length_cons, List.length_nil]
  · exact Prod.Lex.right _ (by omega)
  · exact Prod.Lex.left _ _ (by omega)
  · exact Prod.Lex.left _ _ (by omega)

/-- Setting the element just past a prefix. -/
theorem set_append_cons (pre : List Nat) (x v : Nat) (suf : List Nat) :
    (pre ++ x :: suf).set pre.length v = pre ++ v :: suf := by
  induction pre with
  | nil => rfl
  | cons a l ih => simp [List.set, ih]

/-- Patching the pending marker and appending the delimiter, as done after
the encoder loop. -/
def cobsFinalize : List Nat × Nat × Nat → List Nat
  | (encoded, zero_marker_pos, zero_block_len) =>
    (encoded.set zero_marker_pos zero_block_len) ++ [0x00]

/-- Running the encoder loop from the state that has produced `pre`, holds
the placeholder marker for the current block, and has copied its literal
bytes `cur`, then finalizing, yields `pre` followed by the structural
encoding of `cur` and the remaining input. -/
theorem foldl_cobsStep_eq : ∀ cur rest : List Nat, cur.length ≤ 254 →
    ∀ pre : List Nat,
      cobsFinalize
        (List.foldl cobsStep (pre ++ 0x00 :: cur, pre.length, cur.length + 1) rest) =
      pre ++ cobsFinish cur rest := by
  intro cur rest
  induction cur, rest using cobsFinish.induct with
  | case1 cur =>
    intro _ pre
    simp [cobsFinish, cobsFinalize, set_append_cons]
  | case2 cur b bs h255 ih =>
    intro _ pre
    have key := ih (by simp) (pre ++ 0xff :: cur)
    rw [List.foldl_cons] at key ⊢
    have hstep : cobsStep (pre ++ 0x00 :: cur, pre.length, cur.length + 1) b =
        cobsStep ((pre ++ 0xff :: cur) ++ 0x00 :: ([] : List Nat),
                  (pre ++ 0xff :: cur).length, ([] : List Nat).length + 1) b := by
      simp only [cobsStep, h255, if_pos, set_append_cons]
      simp [List.length_append]
    rw [hstep, key]
    conv_rhs => rw [cobsFinish]
    rw [dif_pos h255]
    simp
  | case3 cur bs h255 ih =>
    intro _ pre
    have key := ih (by simp) (pre ++ (cur.length + 1) :: cur)
    rw [List.foldl_cons]
    have hstep : cobsStep (pre ++ 0x00 :: cur, pre.length, cur.length + 1) (0 : Nat) =
        ((pre ++ (cur.length + 1) :: cur) ++ 0x00 :: ([] : List Nat),
         (pre ++ (cur.length + 1) :: cur).length, ([] : List Nat).length + 1) := by
      simp only [cobsStep, h255, if_neg, if_pos, set_append_cons]
      simp [List.length_append]
    rw [hstep, key]
    conv_rhs => rw [cobsFinish]
    rw [dif_neg h255]
    simp
  | case4 cur b bs h255 hb ih =>
    intro hcur pre
    have key := ih (by simp only [List.length_append, List.length_cons, List.length_nil]; omega) pre
    rw [List.foldl_cons]
    have hstep : cobsStep (pre ++ 0x00 :: cur, pre.length, cur.length + 1) b =
        (pre ++ 0x00 :: (cur ++ [b]), pre.length, (cur ++ [b]).length + 1) := by
      simp only [cobsStep, h255, hb, if_neg]
      simp
    rw [hstep, key]
    conv_rhs => rw [cobsFinish]
    rw [dif_neg h255, dif_neg hb]

/-- `[0x00]` is the only input caught by the encoder's special case. -/
theorem length_one_getD_iff (data : List Nat) :
    (data.length = 1 ∧ data.getD 0 0 = 0x00) ↔ data = [0x00] := by
  cases data with
  | nil => simp
  | cons a l => cases l <;> simp [List.getD] <;> omega

/-- On every input other than `[]` and `[0x00]`, the encoder produces the
structural block encoding of the whole input. -/
theorem encode_bytearray_eq_finish (data : List Nat) (h1 : data ≠ []) (h2 : data ≠ [0x00]) :
    encode_bytearray data = .ok (cobsFinish [] data) := by
  have key := foldl_cobsStep_eq [] data (by simp) []
  simp only [List.nil_append, List.length_nil] at key
  unfold encode_bytearray
  rw [if_neg (by simp [h1]), if_neg (by rw [length_one_getD_iff]; exact h2)]
  rw [← key]
  rfl

/-- The structural encoding always holds at least a marker and the delimiter
beyond its pending literals. -/
theorem cobsFinish_length : ∀ cur rest : List Nat,
    cur.length + 2 ≤ (cobsFinish cur rest).length := by
  intro cur rest
  induction cur, rest using cobsFinish.induct with
  | case1 cur => simp [cobsFinish]
  | case2 cur b bs h255 ih =>
    rw [cobsFinish, dif_pos h255]
    simp at ih ⊢
    omega
  | case3 cur bs h255 ih =>
    rw [cobsFinish, dif_neg h255]
    simp at ih ⊢
    omega
  | case4 cur b bs h255 hb ih =>
    rw [cobsFinish, dif_neg h255, dif_neg hb]
    simp at ih ⊢
    omega

/-- A nonempty remaining input forces at least three bytes of output. -/
theorem cobsFinish_length_cons (cur : List Nat) (b : Nat) (bs : List Nat) :
    3 ≤ (cobsFinish cur (b :: bs)).length := by
  rw [cobsFinish]
  by_cases h255 : cur.length + 1 = 0xff
  · rw [dif_pos h255]
    have := cobsFinish_length [] (b :: bs)
    simp
    omega
  · rw [dif_neg h255]
    by_cases hb : b = 0x00
    · rw [dif_pos hb]
      have := cobsFinish_length ([] : List Nat) bs
      simp
      omega
    · rw [dif_neg hb]
      have := cobsFinish_length (cur ++ [b]) bs
      simp at this
      omega

/-- The structural encoding is a zero-free body followed by the single
delimiter byte; the body's bytes stay below 256 when the input's do. -/
theorem cobsFinish_zeros : ∀ cur rest : List Nat, 0 ∉ cur → cur.length ≤ 254 →
    ∃ ys, cobsFinish cur rest = ys ++ [0x00] ∧ 0 ∉ ys ∧
      ((∀ x ∈ cur, x < 256) → (∀ x ∈ rest, x < 256) → ∀ x ∈ ys, x < 256) := by
  intro cur rest
  induction cur, rest using cobsFinish.induct with
  | case1 cur =>
    intro hc _
    refine ⟨(cur.length + 1) :: cur, by simp [cobsFinish], ?_, ?_⟩
    · simp [hc]
    · intro h1 _ x hx
      simp at hx
      rcases hx with hx | hx
      · omega
      · exact h1 x hx
  | case2 cur b bs h255 ih =>
    intro hc hlen
    obtain ⟨ys, hys, hysz, hysb⟩ := ih (by simp) (by simp)
    refine ⟨0xff :: cur ++ ys, ?_, ?_, ?_⟩
    · rw [cobsFinish, dif_pos h255, hys]
      simp
    · simp [hc, hysz]
    · intro h1 h2 x hx
      simp at hx
      rcases hx with hx | hx | hx
      · omega
      · exact h1 x hx
      · exact hysb (by simp) h2 x hx
  | case3 cur bs h255 ih =>
    intro hc hlen
    obtain ⟨ys, hys, hysz, hysb⟩ := ih (by simp) (by simp)
    refine ⟨(cur.length + 1) :: cur ++ ys, ?_, ?_, ?_⟩
    · rw [cobsFinish, dif_neg h255]
      simp [hys]
    · simp [hc, hysz]
    · intro h1 h2 x hx
      simp at hx
      rcases hx with hx | hx | hx
      · omega
      · exact h1 x hx
      · exact hysb (by simp) (fun y hy => h2 y (by simp [hy])) x hx
  | case4 cur b bs h255 hb ih =>
    intro hc hlen
    obtain ⟨ys, hys, hysz, hysb⟩ :=
      ih (by simp [hc]; omega) (by simp; omega)
    refine ⟨ys, ?_, hysz, ?_⟩
    · rw [cobsFinish, dif_neg h255, dif_neg hb]
      exact hys
    · intro h1 h2 x hx
      refine hysb ?_ (fun y hy => h2 y (by simp [hy])) x hx
      intro y hy
      simp at hy
      rcases hy with hy | hy
      · exact h1 y hy
      · subst hy; exact h2 y (by simp)

/-- Reading the element just past a prefix. -/
theorem getD_append_self (pre : List Nat) (x : Nat) (suf : List Nat) (d : Nat) :
    (pre ++ x :: suf).getD pre.length d = x := by
  induction pre with
  | nil => rfl
  | cons a l ih => simpa using ih

/-- Dropping a prefix and one further element. -/
theorem drop_append_succ (pre : List Nat) (x : Nat) (suf : List Nat) :
    (pre ++ x :: suf).drop (pre.length + 1) = suf := by
  induction pre with
  | nil => rfl
  | cons a l ih => simpa using ih

/-- Running the decoder loop of `decode_bytearray` over a structural
encoding inverts it: the literals of the current block and the remaining
original input are appended to the accumulator. -/
theorem decodeLoop_finish : ∀ cur rest pre acc : List Nat,
    decodeLoop (pre ++ cobsFinish cur rest) pre.length acc = .ok (acc ++ (cur ++ rest)) := by
  intro cur rest
  induction cur, rest using cobsFinish.induct with
  | case1 cur =>
    intro pre acc
    rw [cobsFinish]
    simp only [List.cons_append]
    rw [decodeLoop,
      dif_pos (by simp only [List.length_append, List.length_cons, List.length_nil]; omega)]
    simp only [getD_append_self, drop_append_succ]
    rw [if_neg (by simp only [List.length_append, List.length_cons, List.length_nil]; omega)]
    simp only [Nat.add_sub_cancel, List.take_left]
    rw [if_neg (by simp only [List.length_append, List.length_cons, List.length_nil]; omega)]
    rw [decodeLoop,
      dif_neg (by simp only [List.length_append, List.length_cons, List.length_nil]; omega)]
    simp
  | case2 cur b bs h255 ih =>
    intro pre acc
    have hF := cobsFinish_length ([] : List Nat) (b :: bs)
    simp only [List.length_nil] at hF
    conv_lhs => rw [cobsFinish, dif_pos h255]
    simp only [List.cons_append]
    rw [decodeLoop,
      dif_pos (by simp only [List.length_append, List.length_cons, List.length_nil]; omega)]
    simp only [getD_append_self, drop_append_succ]
    rw [if_neg (by simp only [List.length_append, List.length_cons, List.length_nil]; omega)]
    rw [show (0xff - 1 : Nat) = cur.length from by omega, List.take_left]
    rw [if_neg (by simp)]
    rw [show pre.length + 1 + cur.length = (pre ++ 0xff :: cur).length from by
      simp only [List.length_append, List.length_cons]; omega]
    have key := ih (pre ++ 0xff :: cur) (acc ++ cur)
    rw [show (pre ++ 0xff :: cur) ++ cobsFinish [] (b :: bs) =
          pre ++ 0xff :: (cur ++ cobsFinish [] (b :: bs)) from by simp] at key
    rw [key]
    simp
  | case3 cur bs h255 ih =>
    intro pre acc
    have hF := cobsFinish_length ([] : List Nat) bs
    simp only [List.length_nil] at hF
    conv_lhs => rw [cobsFinish, dif_neg h255, dif_pos (show (0 : Nat) = 0x00 from rfl)]
    simp only [List.cons_append]
    rw [decodeLoop,
      dif_pos (by simp only [List.length_append, List.length_cons, List.length_nil]; omega)]
    simp only [getD_append_self, drop_append_succ]
    rw [if_neg (by simp only [List.length_append, List.length_cons, List.length_nil]; omega)]
    simp only [Nat.add_sub_cancel, List.take_left]
    rw [if_pos (by
      refine ⟨h255, ?_⟩
      simp only [List.length_append, List.length_cons, List.length_nil]
      omega)]
    rw [show pre.length + 1 + cur.length = (pre ++ (cur.length + 1) :: cur).length from by
      simp only [List.length_append, List.length_cons]; omega]
    have key := ih (pre ++ (cur.length + 1) :: cur) (acc ++ cur ++ [0x00])
    rw [show (pre ++ (cur.length + 1) :: cur) ++ cobsFinish [] bs =
          pre ++ (cur.length + 1) :: (cur ++ cobsFinish [] bs) from by simp] at key
    rw [key]
    simp
  | case4 cur b bs h255 hb ih =>
    intro pre acc
    conv_lhs => rw [cobsFinish, dif_neg h255, dif_neg hb]
    rw [ih pre acc]
    simp

/-- `decode_bytearray` inverts the structural encoding of a nonempty input:
all four validation checks pass and the loop reproduces the input. -/
theorem decode_bytearray_finish (data : List Nat) (h1 : data ≠ []) :
    decode_bytearray (cobsFinish [] data) = .ok data := by
  obtain ⟨ys, hys, hzero, -⟩ := cobsFinish_zeros [] data (by simp) (by simp)
  have hlen2 := cobsFinish_length ([] : List Nat) data
  simp only [List.length_nil, Nat.zero_add] at hlen2
  have hlen3 : 3 ≤ (cobsFinish [] data).length := by
    cases data with
    | nil => exact absurd rfl h1
    | cons b bs => exact cobsFinish_length_cons [] b bs
  have hlast : (cobsFinish [] data).getLast? = some 0x00 := by
    rw [hys]; exact List.getLast?_concat _
  have hcount : (cobsFinish [] data).count 0x00 = 1 := by
    rw [hys]
    simp [List.count_append, List.count_eq_zero.mpr hzero]
  unfold decode_bytearray
  rw [if_neg (by omega)]
  rw [if_neg (by simp [hlast])]
  rw [if_neg (by simp [hcount])]
  rw [if_neg (by rintro ⟨h2, -⟩; omega)]
  have key := decodeLoop_finish [] data [] []
  simpa using key

/-- COBS round trip, both the `[0x00]` special case and the general path. -/
theorem cobs_roundtrip_aux (b : List Nat) (hb : b ≠ []) :
    ∃ e, encode_bytearray b = .ok e ∧ decode_bytearray e = .ok b := by
  by_cases hb0 : b = [0x00]
  · subst hb0
    exact ⟨[0x01, 0x00], by decide, by decide⟩
  · exact ⟨cobsFinish [] b, encode_bytearray_eq_finish b hb hb0,
      decode_bytearray_finish b hb⟩

/-! ## TLV record codec (`tlv.py`) -/

/-- `tlv.TLVValueReturnType`: requested return type for the decoded value. -/
inductive TLVValueReturnType where
  | BYTEARRAY | INT | FLOAT
deriving DecidableEq

/-- `tlv.TLVPacket` configuration.  The source stores the widths as members
of enums validated at construction time (`max_data_length`/`max_data_value`
unsigned members, `float_byte_size` a float member); the embedding carries
them as members of the unified format catalog. -/
structure TLVPacket where
  max_data_length : ValueFormat := .UINT8
  max_data_value : ValueFormat := .UINT8
  float_byte_size : ValueFormat := .FLOAT32

/-- `tlv.TLVPacket._validate_and_convert_type`. -/
def TLVPacket._validate_and_convert_type (type_ : PyValue) : Except PyError (List Nat) :=
  match type_ with
  | .int t =>
    if t ≤ 255 then .ok [t]
    else .error (.valueError "Input type_ must be in the range [0, 255].")
  | .bytes b =>
    if b.length = 1 then .ok b
    else .error (.valueError "Input type_ must be exactly 1 byte.")
  | .float _ => .error (.typeError "Input type_ must be an integer or a 1-byte bytearray.")

/-- `tlv.TLVPacket._validate_and_convert_value`: dispatch on the value's
dynamic type; integers use the configured `max_data_value` width, floats the
configured `float_byte_size`, byte sequences pass through unchanged. -/
def TLVPacket._validate_and_convert_value (t : TLVPacket) (value_ : PyValue) :
    Except PyError (List Nat) :=
  match value_ with
  | .int v => int_to_bytearray v t.max_data_value
  | .float f => float_to_bytearray f t.float_byte_size
  | .bytes b => .ok b

/-- `tlv.TLVPacket.encode`. -/
def TLVPacket.encode (t : TLVPacket) (type_ value_ : PyValue) : Except PyError (List Nat) := do
  let ty ← TLVPacket._validate_and_convert_type type_
  let val ← t._validate_and_convert_value value_
  let length_ ← int_to_bytearray val.length t.max_data_length
  .ok (ty ++ length_ ++ val)

/-- `tlv.TLVPacket._decode_float`: decode a float with a byte-size check. -/
def TLVPacket._decode_float (t : TLVPacket) (b : List Nat) : Except PyError PyFloat :=
  if b.length ≠ t.float_byte_size.num_bytes then
    .error (.valueError ("Float value length mismatch: expected " ++
      toString t.float_byte_size.num_bytes ++ " bytes, got " ++ toString b.length ++ "."))
  else
    bytearray_to_float b t.float_byte_size

/-- `tlv.TLVPacket.decode` (the two `isinstance` checks are static here).
Returns the `(type, length, value)` tuple of the source. -/
def TLVPacket.decode (t : TLVPacket) (packet : List Nat)
    (return_value_as : TLVValueReturnType := .BYTEARRAY) :
    Except PyError (Nat × Nat × PyValue) := do
  let num_len_bytes := t.max_data_length.num_bytes
  if packet.length < 1 + num_len_bytes then
    .error (.valueError ("Packet too short to contain a valid TLV header (got " ++
      toString packet.length ++ " bytes)."))
  else
    let type_ := packet.getD 0 0
    let length_ := bytesToNatLE ((packet.drop 1).take num_len_bytes)
    let expected_total_len := 1 + num_len_bytes + length_
    if packet.length ≠ expected_total_len then
      .error (.valueError ("Packet length mismatch: expected " ++
        toString expected_total_len ++ " bytes (type=1, length field=" ++
        toString length_ ++ "), got " ++ toString packet.length ++ " bytes."))
    else
      let value_bytes := packet.drop (num_len_bytes + 1)
      match return_value_as with
      | .BYTEARRAY => .ok (type_, length_, .bytes value_bytes)
      | .INT => .ok (type_, length_, .int (bytearray_to_int value_bytes))
      | .FLOAT => do
          let f ← t._decode_float value_bytes
          .ok (type_, length_, .float f)

/-! ## Packet assembler (`packet.py`) -/

/-- `packet.SerialPacketStruct`: all fields default to `None`. -/
structure SerialPacketStruct where
  device_id : Option Nat := none
  type_ : Option Nat := none
  value_ : Option PyValue := none
  format_ : Option ValueFormat := none
deriving DecidableEq

/-- `packet.SerialPacket` configuration: the TLV length-field width, the
external CRC collaborator (a black box `checksum(bytes) -> int`, default
CRC16-XMODEM), and the serialized checksum width (default UINT16). -/
structure SerialPacket where
  max_data_length : ValueFormat := .UINT8
  crc : List Nat → Nat
  crc_format : ValueFormat := .UINT16

/-- Modelled from the spec: the three-argument TLV encode invoked by the
packet assembler.  `packet.py` line 163 calls
`self._tlv_packet.encode(type_, value_, format_)`, but the TLV module under
`src` has no `format_` parameter, so this entry point is modelled from spec
§4.2: the type must be one byte; the value is serialized little-endian at
the caller-supplied format's fixed width for unsigned integers, as IEEE-754
little-endian bytes for floats, or passed through unchanged for raw byte
sequences (a category mismatch between value and format is a
TypeError-class failure); the length field is the value's byte length
encoded at the configured length-field width. -/
def tlv_encode_with_format (max_data_length : ValueFormat) (type_ : Nat)
    (value_ : PyValue) (format_ : ValueFormat) : Except PyError (List Nat) := do
  let ty ← TLVPacket._validate_and_convert_type (.int type_)
  let val ←
    match value_ with
    | .int v =>
      if format_.is_float then
        .error (.typeError "Value does not match the requested numeric category.")
      else int_to_bytearray v format_
    | .float f =>
      if format_.is_uint then
        .error (.typeError "Value does not match the requested numeric category.")
      else float_to_bytearray f format_
    | .bytes b => .ok b
  let length_ ← int_to_bytearray val.length max_data_length
  .ok (ty ++ length_ ++ val)

/-- Modelled from the spec: `utils.bytearray_to_value`, invoked by
`SerialPacket.decode` (`packet.py` line 149) but absent from `utils.py`.
Spec §4.2/§4.3: convert the value bytes to the numeric type of the supplied
format, failing with a ValueError-class error when the byte count does not
match the format's fixed width; unsigned integers are little-endian. -/
def bytearray_to_value (b : List Nat) (format_ : ValueFormat) : Except PyError PyValue :=
  if b.length ≠ format_.num_bytes then
    .error (.valueError ("Value length mismatch: expected " ++
      toString format_.num_bytes ++ " bytes, got " ++ toString b.length ++ "."))
  else if format_.is_uint then .ok (.int (bytesToNatLE b))
  else .ok (.float ⟨b⟩)

/-- `packet.SerialPacket._encode`: TLV-encode, prepend the optional device
id byte, append the serialized checksum, optionally COBS-encode.
(`bytearray([device_id])` in the source raises for a value above 255.) -/
def SerialPacket._encode (sp : SerialPacket) (type_ : Nat) (value_ : PyValue)
    (format_ : ValueFormat) (device_id : Option Nat) (cobs_encode : Bool) :
    Except PyError (List Nat) := do
  let packet_ ← tlv_encode_with_format sp.max_data_length type_ value_ format_
  let packet_ ←
    match device_id with
    | some d =>
      if d ≤ 255 then .ok ([d] ++ packet_)
      else .error (.valueError "bytes must be in range(0, 256)")
    | none => .ok packet_
  let checksum ← int_to_bytearray (sp.crc packet_) sp.crc_format
  let packet_ := packet_ ++ checksum
  if cobs_encode then encode_bytearray packet_
  else .ok packet_

/-- `packet.SerialPacket.encode` applied to a `SerialPacketStruct` (the
integer-first-argument form of the source unpacks into `_encode` in exactly
the same way).  A struct field left as `None` reaches the TLV layer's type
validation in the source and fails there. -/
def SerialPacket.encode (sp : SerialPacket) (data_ : SerialPacketStruct)
    (cobs_encode : Bool := false) : Except PyError (List Nat) :=
  match data_.type_, data_.value_, data_.format_ with
  | some t, some v, some f => sp._encode t v f data_.device_id cobs_encode
  | _, _, _ => .error (.typeError "Input type_ must be an integer or a 1-byte bytearray.")

/-- Steps 4-5 of `packet.SerialPacket.decode`, after the optional device id
`did` has been split off: TLV length validation, payload extraction and
optional value conversion.  Python list indexing `data_[0]` on an empty
buffer is an IndexError; the length comparison is over Python's signed
integers, hence the cast. -/
def SerialPacket.validateAndExtract (sp : SerialPacket) (data_ : List Nat)
    (format_ : Option ValueFormat) (did : Option Nat) :
    Except PyError SerialPacketStruct := do
  -- Validate length
  let num_len_bytes := sp.max_data_length.num_bytes
  let length_field := bytearray_to_int ((data_.drop 1).take num_len_bytes)
  if (length_field : Int) ≠ (data_.length : Int) - 1 - (num_len_bytes : Int) then
    .error (.valueError "Invalid length")
  else
    -- Extract Data
    match data_ with
    | [] => .error (.indexError "bytearray index out of range")
    | t :: _ =>
      let value_bytes := data_.drop (1 + num_len_bytes)
      match format_ with
      | none =>
        .ok { device_id := did, type_ := some t, value_ := some (.bytes value_bytes),
               format_ := none }
      | some f => do
        let v ← bytearray_to_value value_bytes f
        .ok { device_id := did, type_ := some t, value_ := some v, format_ := some f }

/-- Step 3 of `packet.SerialPacket.decode`: consume the leading device id
byte when `device_id` is set, then validate and extract the TLV payload. -/
def SerialPacket.decodeAfterChecksum (sp : SerialPacket) (data0 : List Nat)
    (format_ : Option ValueFormat) (device_id : Bool) :
    Except PyError SerialPacketStruct :=
  -- Extract Device ID if necessary
  if device_id then
    match data0 with
    | [] => .error (.indexError "bytearray index out of range")
    | d :: rest => sp.validateAndExtract rest format_ (some d)
  else sp.validateAndExtract data0 format_ none

/-- `packet.SerialPacket.decode`: optional COBS decode, checksum
verification, then the remaining steps (the `isinstance` check is static). -/
def SerialPacket.decode (sp : SerialPacket) (data_ : List Nat)
    (format_ : Option ValueFormat := none) (device_id : Bool := false)
    (cobs_encoded : Bool := false) : Except PyError SerialPacketStruct := do
  -- Perform COBS decoding if necessary
  let data_ ← if cobs_encoded then decode_bytearray data_ else .ok data_
  -- Verify Checksum
  let num_bytes := sp.crc_format.num_bytes
  let sent_checksum := data_.drop (data_.length - num_bytes)
  let data_ := data_.take (data_.length - num_bytes)
  let checksum ← int_to_bytearray (sp.crc data_) sp.crc_format
  if checksum ≠ sent_checksum then
    .error (.valueError ("Checksum verification failed. Received checksum: " ++
      bytearray_to_hexstring sent_checksum ++ ". Calculated checksum: " ++
      bytearray_to_hexstring checksum ++ "."))
  else
    sp.decodeAfterChecksum data_ format_ device_id

/-! ## Support lemmas for the record and packet layers -/

theorem natToBytesLE_length (w v : Nat) : (natToBytesLE w v).length = w := by
  induction w generalizing v with
  | zero => rfl
  | succ w ih => simp [natToBytesLE, ih]

theorem bytesToNatLE_natToBytesLE (w v : Nat) (h : v < 256 ^ w) :
    bytesToNatLE (natToBytesLE w v) = v := by
  induction w generalizing v with
  | zero =>
    simp [natToBytesLE, bytesToNatLE]
    omega
  | succ w ih =>
    rw [natToBytesLE, bytesToNatLE, ih (v / 256) (by
      have : 256 ^ (w + 1) = 256 ^ w * 256 := by ring
      omega)]
    omega

theorem is_uint_not_is_float (f : ValueFormat) (h : f.is_uint = true) :
    f.is_float = false := by
  cases f <;> simp_all [ValueFormat.is_uint, ValueFormat.is_float, ValueFormat.category]

theorem is_float_not_is_uint (f : ValueFormat) (h : f.is_float = true) :
    f.is_uint = false := by
  cases f <;> simp_all [ValueFormat.is_uint, ValueFormat.is_float, ValueFormat.category]

theorem le_max_value_iff (f : ValueFormat) (v : Nat) :
    v ≤ f.max_value ↔ v < 256 ^ f.num_bytes := by
  have h256 : (256 : Nat) ^ f.num_bytes = 2 ^ (f.num_bytes * 8) := by
    rw [show (256 : Nat) = 2 ^ 8 from rfl, ← pow_mul, Nat.mul_comm]
  rw [ValueFormat.max_value, h256]
  have : 0 < 2 ^ (f.num_bytes * 8) := Nat.pos_pow_of_pos _ (by omega)
  omega

theorem int_to_bytearray_ok (v : Nat) (f : ValueFormat)
    (hf : f.is_uint = true) (hv : v ≤ f.max_value) :
    int_to_bytearray v f = .ok (natToBytesLE f.num_bytes v) := by
  rw [int_to_bytearray, is_uint_not_is_float f hf]
  simp [hv]

/-- The byte serialization of a value under a format, as produced by the
value-conversion step of the spec-modelled three-argument TLV encode. -/
def valueBytes : PyValue → ValueFormat → List Nat
  | .int v, f => natToBytesLE f.num_bytes v
  | .float fl, _ => fl.bytes
  | .bytes b, _ => b

/-- A value is representable in a format: integers must be in range of an
unsigned format, floats must carry the bit pattern of a float format. -/
def ValueFits : PyValue → ValueFormat → Prop
  | .int v, f => f.is_uint = true ∧ v ≤ f.max_value
  | .float fl, f => f.is_float = true ∧ fl.bytes.length = f.num_bytes
  | .bytes _, _ => False

theorem valueBytes_length (v : PyValue) (f : ValueFormat) (h : ValueFits v f) :
    (valueBytes v f).length = f.num_bytes := by
  cases v with
  | int v => simp [valueBytes, natToBytesLE_length]
  | float fl => exact h.2
  | bytes b => exact absurd h (by simp [ValueFits])

theorem tlv_encode_with_format_ok (ml : ValueFormat) (t : Nat) (v : PyValue)
    (f : ValueFormat) (hml : ml.is_uint = true) (ht : t ≤ 255) (hv : ValueFits v f) :
    tlv_encode_with_format ml t v f =
      .ok ([t] ++ natToBytesLE ml.num_bytes (valueBytes v f).length ++ valueBytes v f) := by
  have hlen : (valueBytes v f).length ≤ ml.max_value := by
    rw [valueBytes_length v f hv, le_max_value_iff]
    have hn : f.num_bytes ≤ 8 := by cases f <;> simp [ValueFormat.num_bytes]
    have hk : 1 ≤ ml.num_bytes := by cases ml <;> simp [ValueFormat.num_bytes]
    calc f.num_bytes ≤ 8 := hn
      _ < 256 ^ 1 := by norm_num
      _ ≤ 256 ^ ml.num_bytes := Nat.pow_le_pow_right (by norm_num) hk
  cases v with
  | int w =>
    obtain ⟨hfu, hw⟩ := hv
    have hlen' : (natToBytesLE f.num_bytes w).length ≤ ml.max_value := by
      simpa [valueBytes] using hlen
    rw [tlv_encode_with_format, TLVPacket._validate_and_convert_type]
    simp only [ht, if_pos, is_uint_not_is_float f hfu, Bool.false_eq_true, if_neg,
      int_to_bytearray_ok w f hfu hw]
    simp [bind, Except.bind, pure, Except.pure, int_to_bytearray_ok _ ml hml hlen', valueBytes]
  | float fl =>
    obtain ⟨hff, hb⟩ := hv
    have hlen' : fl.bytes.length ≤ ml.max_value := by
      simpa [valueBytes] using hlen
    rw [tlv_encode_with_format, TLVPacket._validate_and_convert_type]
    simp only [ht, if_pos, is_float_not_is_uint f hff, Bool.false_eq_true, if_neg,
      float_to_bytearray, hff, if_pos]
    simp [bind, Except.bind, pure, Except.pure, int_to_bytearray_ok _ ml hml hlen', valueBytes]
  | bytes b => exact absurd hv (by simp [ValueFits])

theorem bytearray_to_value_fits (v : PyValue) (f : ValueFormat) (hv : ValueFits v f) :
    bytearray_to_value (valueBytes v f) f = .ok v := by
  rw [bytearray_to_value, if_neg (by rw [valueBytes_length v f hv]; omega)]
  cases v with
  | int w =>
    obtain ⟨hfu, hw⟩ := hv
    rw [if_pos hfu]
    rw [valueBytes, bytesToNatLE_natToBytesLE _ _ ((le_max_value_iff f w).mp hw)]
  | float fl =>
    obtain ⟨hff, -⟩ := hv
    rw [if_neg (by rw [is_float_not_is_uint f hff]; simp)]
    rfl
  | bytes b => exact absurd hv (by simp [ValueFits])

/-- The optional device-id prefix byte. -/
def deviceBytes : Option Nat → List Nat
  | some d => [d]
  | none => []

/-- The bytes covered by the checksum: optional device id, type byte,
length field, value bytes. -/
def packetBody (sp : SerialPacket) (t : Nat) (v : PyValue) (f : ValueFormat)
    (dev : Option Nat) : List Nat :=
  deviceBytes dev ++
    ([t] ++ natToBytesLE sp.max_data_length.num_bytes (valueBytes v f).length ++ valueBytes v f)

/-- The un-framed wire packet: body plus serialized checksum trailer. -/
def packetWire (sp : SerialPacket) (t : Nat) (v : PyValue) (f : ValueFormat)
    (dev : Option Nat) : List Nat :=
  packetBody sp t v f dev ++
    natToBytesLE sp.crc_format.num_bytes (sp.crc (packetBody sp t v f dev))

theorem valueBytes_length_le_max (v : PyValue) (f ml : ValueFormat) (hv : ValueFits v f) :
    (valueBytes v f).length ≤ ml.max_value := by
  rw [valueBytes_length v f hv, le_max_value_iff]
  have hn : f.num_bytes ≤ 8 := by cases f <;> simp [ValueFormat.num_bytes]
  have hk : 1 ≤ ml.num_bytes := by cases ml <;> simp [ValueFormat.num_bytes]
  calc f.num_bytes ≤ 8 := hn
    _ < 256 ^ 1 := by norm_num
    _ ≤ 256 ^ ml.num_bytes := Nat.pow_le_pow_right (by norm_num) hk

theorem encode_packet_wire (sp : SerialPacket) (t : Nat) (v : PyValue) (f : ValueFormat)
    (dev : Option Nat) (cobs : Bool)
    (hml : sp.max_data_length.is_uint = true) (hcf : sp.crc_format.is_uint = true)
    (hcrc : ∀ l, sp.crc l ≤ sp.crc_format.max_value)
    (ht : t ≤ 255) (hv : ValueFits v f)
    (hdev : ∀ d, dev = some d → d ≤ 255) :
    sp._encode t v f dev cobs =
      if cobs then encode_bytearray (packetWire sp t v f dev)
      else .ok (packetWire sp t v f dev) := by
  rw [SerialPacket._encode,
    tlv_encode_with_format_ok sp.max_data_length t v f hml ht hv]
  have hcs := int_to_bytearray_ok (sp.crc (packetBody sp t v f dev)) sp.crc_format hcf
    (hcrc _)
  cases dev with
  | none =>
    simp only [bind, Except.bind, pure, Except.pure]
    rw [show [t] ++ natToBytesLE sp.max_data_length.num_bytes (valueBytes v f).length ++
          valueBytes v f = packetBody sp t v f none from by simp [packetBody, deviceBytes]]
    rw [hcs]
    simp [packetWire]
  | some d =>
    have hd : d ≤ 255 := hdev d rfl
    simp only [bind, Except.bind, pure, Except.pure, hd, if_pos]
    rw [show [d] ++ ([t] ++ natToBytesLE sp.max_data_length.num_bytes (valueBytes v f).length ++
          valueBytes v f) = packetBody sp t v f (some d) from by simp [packetBody, deviceBytes]]
    rw [hcs]
    simp [packetWire]

theorem packetWire_length (sp : SerialPacket) (t : Nat) (v : PyValue) (f : ValueFormat)
    (dev : Option Nat) :
    (packetWire sp t v f dev).length =
      (deviceBytes dev).length + 1 + sp.max_data_length.num_bytes +
        (valueBytes v f).length + sp.crc_format.num_bytes := by
  simp [packetWire, packetBody, natToBytesLE_length]
  omega

theorem validateAndExtract_body (sp : SerialPacket) (t : Nat) (v : PyValue)
    (f : ValueFormat) (did : Option Nat)
    (hml : sp.max_data_length.is_uint = true) (hv : ValueFits v f) :
    sp.validateAndExtract
        ([t] ++ natToBytesLE sp.max_data_length.num_bytes (valueBytes v f).length ++
          valueBytes v f) (some f) did =
      .ok { device_id := did, type_ := some t, value_ := some v, format_ := some f } := by
  have hkl : (natToBytesLE sp.max_data_length.num_bytes (valueBytes v f).length).length =
      sp.max_data_length.num_bytes := natToBytesLE_length _ _
  have hfield : bytearray_to_int
      ((([t] ++ natToBytesLE sp.max_data_length.num_bytes (valueBytes v f).length ++
        valueBytes v f).drop 1).take sp.max_data_length.num_bytes) =
      (valueBytes v f).length := by
    rw [show ([t] ++ natToBytesLE sp.max_data_length.num_bytes (valueBytes v f).length ++
          valueBytes v f).drop 1 =
        natToBytesLE sp.max_data_length.num_bytes (valueBytes v f).length ++ valueBytes v f
      from by simp]
    rw [List.take_left' hkl, bytearray_to_int, bytesToNatLE_natToBytesLE]
    rw [← le_max_value_iff]
    exact valueBytes_length_le_max v f sp.max_data_length hv
  have hdrop : (t :: (natToBytesLE sp.max_data_length.num_bytes (valueBytes v f).length ++
      valueBytes v f)).drop (1 + sp.max_data_length.num_bytes) = valueBytes v f := by
    rw [Nat.add_comm 1 sp.max_data_length.num_bytes, List.drop_succ_cons]
    exact List.drop_left' hkl
  rw [SerialPacket.validateAndExtract.eq_def]
  simp only [hfield]
  rw [if_neg (by
    simp only [List.length_append, List.length_cons, List.length_nil, hkl]
    push_cast
    omega)]
  simp only [List.cons_append, List.nil_append, hdrop,
    bytearray_to_value_fits v f hv, bind, Except.bind]

/-- The checksum-verification stage of `SerialPacket.decode` in isolation
(no COBS): the decoder either fails with the checksum-mismatch error carrying
both checksums, or hands the prefix to the remaining stages. -/
theorem decode_checksum_cases (sp : SerialPacket) (data : List Nat)
    (fo : Option ValueFormat) (dv : Bool)
    (hcf : sp.crc_format.is_uint = true)
    (hcrc : ∀ l, sp.crc l ≤ sp.crc_format.max_value) :
    sp.decode data fo dv false =
      if natToBytesLE sp.crc_format.num_bytes
          (sp.crc (data.take (data.length - sp.crc_format.num_bytes))) ≠
          data.drop (data.length - sp.crc_format.num_bytes) then
        .error (.valueError ("Checksum verification failed. Received checksum: " ++
          bytearray_to_hexstring (data.drop (data.length - sp.crc_format.num_bytes)) ++
          ". Calculated checksum: " ++
          bytearray_to_hexstring (natToBytesLE sp.crc_format.num_bytes
            (sp.crc (data.take (data.length - sp.crc_format.num_bytes)))) ++ "."))
      else sp.decodeAfterChecksum (data.take (data.length - sp.crc_format.num_bytes)) fo dv := by
  rw [SerialPacket.decode]
  simp only [Bool.false_eq_true, if_false, bind, Except.bind,
    int_to_bytearray_ok _ _ hcf (hcrc _)]

theorem decode_packetWire (sp : SerialPacket) (t : Nat) (v : PyValue) (f : ValueFormat)
    (dev : Option Nat)
    (hml : sp.max_data_length.is_uint = true) (hcf : sp.crc_format.is_uint = true)
    (hcrc : ∀ l, sp.crc l ≤ sp.crc_format.max_value)
    (hv : ValueFits v f) :
    sp.decode (packetWire sp t v f dev) (some f) dev.isSome false =
      .ok { device_id := dev, type_ := some t, value_ := some v, format_ := some f } := by
  rw [decode_checksum_cases sp _ _ _ hcf hcrc]
  rw [show (packetWire sp t v f dev).length - sp.crc_format.num_bytes =
        (packetBody sp t v f dev).length from by
    simp [packetWire, natToBytesLE_length]]
  rw [packetWire, List.drop_left, List.take_left]
  rw [if_neg (by simp)]
  rw [SerialPacket.decodeAfterChecksum.eq_def]
  cases dev with
  | none =>
    simp only [Option.isSome_none, Bool.false_eq_true, if_neg]
    rw [show packetBody sp t v f none =
        [t] ++ natToBytesLE sp.max_data_length.num_bytes (valueBytes v f).length ++
          valueBytes v f from by simp [packetBody, deviceBytes]]
    exact validateAndExtract_body sp t v f none hml hv
  | some d =>
    simp only [Option.isSome_some, if_pos]
    rw [show packetBody sp t v f (some d) =
        d :: ([t] ++ natToBytesLE sp.max_data_length.num_bytes (valueBytes v f).length ++
          valueBytes v f) from by simp [packetBody, deviceBytes]]
    exact validateAndExtract_body sp t v f (some d) hml hv

theorem num_bytes_pos (f : ValueFormat) : 1 ≤ f.num_bytes := by
  cases f <;> simp [ValueFormat.num_bytes]

theorem packetWire_length_ge (sp : SerialPacket) (t : Nat) (v : PyValue)
    (f : ValueFormat) (dev : Option Nat) : 3 ≤ (packetWire sp t v f dev).length := by
  rw [packetWire_length]
  have h1 := num_bytes_pos sp.max_data_length
  have h2 := num_bytes_pos sp.crc_format
  omega

/-- A frame-decoding success turns a COBS-wrapped packet decode into the
plain decode of the unwrapped bytes. -/
theorem decode_cobs_step (sp : SerialPacket) (data w : List Nat)
    (fo : Option ValueFormat) (dv : Bool) (h : decode_bytearray data = .ok w) :
    sp.decode data fo dv true = sp.decode w fo dv false := by
  rw [SerialPacket.decode, SerialPacket.decode]
  simp only [if_pos, Bool.false_eq_true, if_false, h, bind, Except.bind]

/-- Packet round trip over both framing modes: encoding succeeds and
decoding with matching flags restores every field. -/
theorem packet_roundtrip_aux (sp : SerialPacket) (t : Nat) (v : PyValue)
    (f : ValueFormat) (dev : Option Nat) (cobs : Bool)
    (hml : sp.max_data_length.is_uint = true) (hcf : sp.crc_format.is_uint = true)
    (hcrc : ∀ l, sp.crc l ≤ sp.crc_format.max_value)
    (ht : t ≤ 255) (hv : ValueFits v f)
    (hdev : ∀ d, dev = some d → d ≤ 255) :
    ∃ e, sp._encode t v f dev cobs = .ok e ∧
      sp.decode e (some f) dev.isSome cobs =
        .ok { device_id := dev, type_ := some t, value_ := some v, format_ := some f } := by
  have henc := encode_packet_wire sp t v f dev cobs hml hcf hcrc ht hv hdev
  cases cobs with
  | false =>
    simp only [Bool.false_eq_true, if_false] at henc
    exact ⟨packetWire sp t v f dev, henc,
      decode_packetWire sp t v f dev hml hcf hcrc hv⟩
  | true =>
    simp only [if_pos] at henc
    have hlen := packetWire_length_ge sp t v f dev
    have hne1 : packetWire sp t v f dev ≠ [] := by
      intro h; rw [h] at hlen; simp at hlen
    have hne2 : packetWire sp t v f dev ≠ [0x00] := by
      intro h; rw [h] at hlen; simp at hlen
    have hfin := encode_bytearray_eq_finish (packetWire sp t v f dev) hne1 hne2
    refine ⟨cobsFinish [] (packetWire sp t v f dev), by rw [henc, hfin], ?_⟩
    rw [decode_cobs_step sp _ (packetWire sp t v f dev) _ _
      (decode_bytearray_finish _ hne1)]
    exact decode_packetWire sp t v f dev hml hcf hcrc hv

/-! ## Claim theorems -/

/-- C2: for every byte sequence `b` of length at least 1 (including
sequences containing zero bytes anywhere), COBS decode inverts COBS encode:
`decode_bytearray(encode_bytearray(b)) == b`. -/
theorem cobs_roundtrip (b : List Nat) (hb : b ≠ []) (hbytes : ∀ x ∈ b, x < 256) :
    ∃ e, encode_bytearray b = .ok e ∧ decode_bytearray e = .ok b :=
  cobs_roundtrip_aux b hb

/-- Witness for C2 at `b = [0x00, 0x07, 0x00]`. -/
theorem cobs_roundtrip_witness :
    ∃ e, encode_bytearray [0x00, 0x07, 0x00] = .ok e ∧
      decode_bytearray e = .ok [0x00, 0x07, 0x00] :=
  cobs_roundtrip [0x00, 0x07, 0x00] (by decide) (by decide)

/-- C3: for every nonempty byte sequence, the COBS encoding ends in the
`0x00` terminator, contains no other zero byte, and all its bytes (markers
included) stay below 256, so every marker lies in `[1, 255]`. -/
theorem cobs_zero_free (b : List Nat) (hb : b ≠ []) (hbytes : ∀ x ∈ b, x < 256) :
    ∃ e, encode_bytearray b = .ok e ∧ e.getLast? = some 0x00 ∧
      0x00 ∉ e.dropLast ∧ ∀ x ∈ e, x < 256 := by
  by_cases hb0 : b = [0x00]
  · subst hb0
    exact ⟨[0x01, 0x00], by decide, by decide, by decide, by decide⟩
  · obtain ⟨ys, hys, hzero, hbound⟩ := cobsFinish_zeros [] b (by simp) (by simp)
    refine ⟨cobsFinish [] b, encode_bytearray_eq_finish b hb hb0, ?_, ?_, ?_⟩
    · rw [hys]; exact List.getLast?_concat _
    · rw [hys, List.dropLast_concat]; exact hzero
    · intro x hx
      rw [hys] at hx
      rcases List.mem_append.mp hx with hx | hx
      · exact hbound (by simp) hbytes x hx
      · simp at hx; omega

/-- Witness for C3 at `b = [0x00, 0x07, 0x00]`. -/
theorem cobs_zero_free_witness :
    ∃ e, encode_bytearray [0x00, 0x07, 0x00] = .ok e ∧ e.getLast? = some 0x00 ∧
      0x00 ∉ e.dropLast ∧ ∀ x ∈ e, x < 256 :=
  cobs_zero_free [0x00, 0x07, 0x00] (by decide) (by decide)

/-- C5: `decode_bytearray` rejects with a ValueError every input that is
shorter than two bytes, or does not end in the `0x00` terminator, or
contains more than one zero byte; the decoding loop rejects any marker that
points past the end of the buffer; in particular `[0x03, 0x00, 0x00]`,
`[0x03, 0x01, 0x02]` and `[0x03, 0x01, 0x00]` are all rejected. -/
theorem cobs_decode_rejects_malformed :
    (∀ data : List Nat,
      (data.length < 2 ∨ data.getLast? ≠ some 0x00 ∨ data.count 0x00 > 1) →
        ∃ msg, decode_bytearray data = .error (.valueError msg)) ∧
    (∀ (data : List Nat) (idx : Nat) (acc : List Nat), idx < data.length - 1 →
      data.getD idx 0 + idx ≥ data.length →
        decodeLoop data idx acc =
          .error (.valueError "Invalid COBS-encoded data: invalid zero marker")) ∧
    decode_bytearray [0x03, 0x00, 0x00] =
      .error (.valueError "Invalid COBS-encoded data: more than one frame delimiter (0x00)") ∧
    decode_bytearray [0x03, 0x01, 0x02] =
      .error (.valueError "Invalid COBS-encoded data: missing final frame delimiter (0x00)") ∧
    decode_bytearray [0x03, 0x01, 0x00] =
      .error (.valueError "Invalid COBS-encoded data: invalid zero marker") := by
  have hloop : ∀ (data : List Nat) (idx : Nat) (acc : List Nat), idx < data.length - 1 →
      data.getD idx 0 + idx ≥ data.length →
        decodeLoop data idx acc =
          .error (.valueError "Invalid COBS-encoded data: invalid zero marker") := by
    intro data idx acc hidx hm
    rw [decodeLoop, dif_pos hidx]
    simp only [if_pos hm]
  refine ⟨?_, hloop, by decide, by decide, ?_⟩
  · intro data h
    rw [decode_bytearray]
    by_cases h1 : data.length < 2
    · exact ⟨_, by rw [if_pos h1]⟩
    rw [if_neg h1]
    by_cases h2 : data.getLast? ≠ some 0x00
    · exact ⟨_, by rw [if_pos h2]⟩
    rw [if_neg h2]
    by_cases h3 : data.count 0x00 > 1
    · exact ⟨_, by rw [if_pos h3]⟩
    rcases h with h | h | h
    · exact absurd h h1
    · exact absurd h h2
    · exact absurd h h3
  · rw [decode_bytearray]
    rw [if_neg (by decide), if_neg (by decide), if_neg (by decide), if_neg (by decide)]
    exact hloop [0x03, 0x01, 0x00] 0 [] (by decide) (by decide)

/-- Witness for C5: the too-short input `[0x05]` and a marker past the
buffer end. -/
theorem cobs_decode_rejects_malformed_witness :
    (∃ msg, decode_bytearray [0x05] = .error (.valueError msg)) ∧
    decodeLoop [0x05, 0x01, 0x00] 0 [] =
      .error (.valueError "Invalid COBS-encoded data: invalid zero marker") :=
  ⟨cobs_decode_rejects_malformed.1 [0x05] (Or.inl (by decide)),
   cobs_decode_rejects_malformed.2.1 [0x05, 0x01, 0x00] 0 [] (by decide) (by decide)⟩

set_option maxRecDepth 8000 in
/-- C7: the three exact boundary frames of the spec, in both directions:
`[0x00]`, `[0x01,0x02,0x03]`, and the 256-byte sequence `0x00..0xFF` whose
encoding exercises the 254-byte block cap. -/
theorem cobs_exact_frames :
    encode_bytearray [0x00] = .ok [0x01, 0x00] ∧
    encode_bytearray [0x01, 0x02, 0x03] = .ok [0x04, 0x01, 0x02, 0x03, 0x00] ∧
    encode_bytearray (List.range 256) =
      .ok ([0x01, 0xff] ++ List.range' 1 254 ++ [0x02, 0xff, 0x00]) ∧
    decode_bytearray [0x01, 0x00] = .ok [0x00] ∧
    decode_bytearray [0x04, 0x01, 0x02, 0x03, 0x00] = .ok [0x01, 0x02, 0x03] ∧
    decode_bytearray ([0x01, 0xff] ++ List.range' 1 254 ++ [0x02, 0xff, 0x00]) =
      .ok (List.range 256) := by
  have h123 : cobsFinish [] [0x01, 0x02, 0x03] = [0x04, 0x01, 0x02, 0x03, 0x00] :=
    Except.ok.inj ((encode_bytearray_eq_finish [0x01, 0x02, 0x03] (by decide)
      (by decide)).symm.trans (by decide))
  have hrange : cobsFinish [] (List.range 256) =
      [0x01, 0xff] ++ List.range' 1 254 ++ [0x02, 0xff, 0x00] :=
    Except.ok.inj ((encode_bytearray_eq_finish (List.range 256) (by decide)
      (by decide)).symm.trans (by decide))
  refine ⟨by decide, by decide, by decide, by decide, ?_, ?_⟩
  · rw [← h123]
    exact decode_bytearray_finish [0x01, 0x02, 0x03] (by decide)
  · rw [← hrange]
    exact decode_bytearray_finish (List.range 256) (by decide)

/-- C1: for every packet built by `SerialPacket.encode` — with or without a
device-id byte, with or without COBS wrapping, for any supported value
format and any value representable in it — `SerialPacket.decode` with
matching `format_`, `device_id` and `cobs_encoded` flags restores the same
address, type and value. -/
theorem packet_roundtrip (sp : SerialPacket) (dev : Option Nat) (t : Nat)
    (v : PyValue) (f : ValueFormat) (cobs : Bool)
    (hml : sp.max_data_length.is_uint = true) (hcf : sp.crc_format.is_uint = true)
    (hcrc : ∀ l, sp.crc l ≤ sp.crc_format.max_value)
    (ht : t ≤ 255) (hv : ValueFits v f)
    (hdev : ∀ d, dev = some d → d ≤ 255) :
    ∃ e, sp.encode ⟨dev, some t, some v, some f⟩ cobs = .ok e ∧
      sp.decode e (some f) dev.isSome cobs =
        .ok ⟨dev, some t, some v, some f⟩ := by
  have h := packet_roundtrip_aux sp t v f dev cobs hml hcf hcrc ht hv hdev
  simpa [SerialPacket.encode] using h

/-- Witness for C1: device id 20, type 1, value 123 as UINT8, COBS-wrapped,
default widths, a concrete checksum collaborator. -/
theorem packet_roundtrip_witness :
    ∃ e, (SerialPacket.mk .UINT8 (fun l => l.foldl (· + ·) 0 % 65536) .UINT16).encode
        ⟨some 20, some 1, some (.int 123), some .UINT8⟩ true = .ok e ∧
      (SerialPacket.mk .UINT8 (fun l => l.foldl (· + ·) 0 % 65536) .UINT16).decode e
          (some .UINT8) (some 20).isSome true =
        .ok ⟨some 20, some 1, some (.int 123), some .UINT8⟩ :=
  packet_roundtrip (SerialPacket.mk .UINT8 (fun l => l.foldl (· + ·) 0 % 65536) .UINT16)
    (some 20) 1 (.int 123) .UINT8 true (by decide) (by decide)
    (fun l => by simp [ValueFormat.max_value, ValueFormat.num_bytes]; omega)
    (by decide) ⟨by decide, by decide⟩
    (fun d h => by injection h with h; omega)

/-- C4: `SerialPacket.decode` (no COBS) splits off the trailing checksum at
the configured width, recomputes the checksum over the remaining bytes, and
fails with the ValueError "checksum verification failed" carrying both the
received and the computed checksum exactly when they differ byte-for-byte;
when they are equal it proceeds to the remaining decode stages. -/
theorem packet_checksum_verification (sp : SerialPacket) (data : List Nat)
    (fo : Option ValueFormat) (dv : Bool)
    (hcf : sp.crc_format.is_uint = true)
    (hcrc : ∀ l, sp.crc l ≤ sp.crc_format.max_value) :
    (natToBytesLE sp.crc_format.num_bytes
        (sp.crc (data.take (data.length - sp.crc_format.num_bytes))) ≠
        data.drop (data.length - sp.crc_format.num_bytes) →
      sp.decode data fo dv false = .error (.valueError
        ("Checksum verification failed. Received checksum: " ++
          bytearray_to_hexstring (data.drop (data.length - sp.crc_format.num_bytes)) ++
          ". Calculated checksum: " ++
          bytearray_to_hexstring (natToBytesLE sp.crc_format.num_bytes
            (sp.crc (data.take (data.length - sp.crc_format.num_bytes)))) ++ "."))) ∧
    (natToBytesLE sp.crc_format.num_bytes
        (sp.crc (data.take (data.length - sp.crc_format.num_bytes))) =
        data.drop (data.length - sp.crc_format.num_bytes) →
      sp.decode data fo dv false =
        sp.decodeAfterChecksum (data.take (data.length - sp.crc_format.num_bytes)) fo dv) := by
  constructor <;> intro h <;> rw [decode_checksum_cases sp data fo dv hcf hcrc]
  · rw [if_pos h]
  · rw [if_neg (by simp [h])]

/-- Witness for C4 at a concrete mismatching input. -/
theorem packet_checksum_verification_witness :
    (natToBytesLE ValueFormat.UINT16.num_bytes
        ((SerialPacket.mk .UINT8 (fun _ => 0) .UINT16).crc
          (List.take ([1, 2, 3].length - ValueFormat.UINT16.num_bytes) [1, 2, 3])) ≠
        List.drop ([1, 2, 3].length - ValueFormat.UINT16.num_bytes) [1, 2, 3]) ∧
    (SerialPacket.mk .UINT8 (fun _ => 0) .UINT16).decode [1, 2, 3] none false false =
      .error (.valueError
        ("Checksum verification failed. Received checksum: " ++
          bytearray_to_hexstring
            (List.drop ([1, 2, 3].length - ValueFormat.UINT16.num_bytes) [1, 2, 3]) ++
          ". Calculated checksum: " ++
          bytearray_to_hexstring (natToBytesLE ValueFormat.UINT16.num_bytes
            ((SerialPacket.mk .UINT8 (fun _ => 0) .UINT16).crc
              (List.take ([1, 2, 3].length - ValueFormat.UINT16.num_bytes) [1, 2, 3]))) ++
          ".")) :=
  ⟨by decide,
   (packet_checksum_verification (SerialPacket.mk .UINT8 (fun _ => 0) .UINT16) [1, 2, 3]
      none false (by decide) (fun l => by simp [ValueFormat.max_value])).1 (by decide)⟩

/-- C10: with `cobs_encoded` false, any input shorter than the configured
checksum width makes `SerialPacket.decode` fail with the checksum-mismatch
ValueError (the slicing of the split cannot fault, and no IndexError
arises): the whole input becomes the received checksum, the checksum is
recomputed over the empty remainder, and the widths can never agree. -/
theorem decode_short_input_safe (sp : SerialPacket) (data : List Nat)
    (fo : Option ValueFormat) (dv : Bool)
    (hcf : sp.crc_format.is_uint = true)
    (hcrc : ∀ l, sp.crc l ≤ sp.crc_format.max_value)
    (hshort : data.length < sp.crc_format.num_bytes) :
    sp.decode data fo dv false = .error (.valueError
      ("Checksum verification failed. Received checksum: " ++
        bytearray_to_hexstring data ++ ". Calculated checksum: " ++
        bytearray_to_hexstring
          (natToBytesLE sp.crc_format.num_bytes (sp.crc [])) ++ ".")) := by
  rw [decode_checksum_cases sp data fo dv hcf hcrc]
  have h0 : data.length - sp.crc_format.num_bytes = 0 := by omega
  rw [h0]
  simp only [List.drop_zero, List.take_zero]
  rw [if_pos (by
    intro h
    have hlen := congrArg List.length h
    rw [natToBytesLE_length] at hlen
    omega)]

/-- Witness for C10: a one-byte input against the two-byte default
checksum width. -/
theorem decode_short_input_safe_witness :
    (SerialPacket.mk .UINT8 (fun _ => 0) .UINT16).decode [7] none false false =
      .error (.valueError
        ("Checksum verification failed. Received checksum: " ++
          bytearray_to_hexstring [7] ++ ". Calculated checksum: " ++
          bytearray_to_hexstring (natToBytesLE ValueFormat.UINT16.num_bytes
            ((SerialPacket.mk .UINT8 (fun _ => 0) .UINT16).crc [])) ++ ".")) :=
  decode_short_input_safe (SerialPacket.mk .UINT8 (fun _ => 0) .UINT16) [7] none false
    (by decide) (fun l => by simp [ValueFormat.max_value]) (by decide)

/-- C6: `TLVPacket.decode` rejects with a ValueError every packet whose
decoded length field differs from the number of bytes remaining after the
type byte and the length field, and raises no such error when they agree
(shown here with the raw-bytes return type, which then succeeds outright). -/
theorem tlv_length_mismatch (t : TLVPacket) (pkt : List Nat) (ret : TLVValueReturnType)
    (hlen : 1 + t.max_data_length.num_bytes ≤ pkt.length) :
    (pkt.length ≠ 1 + t.max_data_length.num_bytes +
        bytesToNatLE ((pkt.drop 1).take t.max_data_length.num_bytes) →
      t.decode pkt ret = .error (.valueError ("Packet length mismatch: expected " ++
        toString (1 + t.max_data_length.num_bytes +
          bytesToNatLE ((pkt.drop 1).take t.max_data_length.num_bytes)) ++
        " bytes (type=1, length field=" ++
        toString (bytesToNatLE ((pkt.drop 1).take t.max_data_length.num_bytes)) ++
        "), got " ++ toString pkt.length ++ " bytes."))) ∧
    (pkt.length = 1 + t.max_data_length.num_bytes +
        bytesToNatLE ((pkt.drop 1).take t.max_data_length.num_bytes) →
      t.decode pkt .BYTEARRAY = .ok (pkt.getD 0 0,
        bytesToNatLE ((pkt.drop 1).take t.max_data_length.num_bytes),
        .bytes (pkt.drop (t.max_data_length.num_bytes + 1)))) := by
  constructor <;> intro h <;> rw [TLVPacket.decode] <;> rw [if_neg (by omega)]
  · simp only [if_pos h]
  · simp only [if_neg (by omega : ¬pkt.length ≠ 1 + t.max_data_length.num_bytes +
      bytesToNatLE ((pkt.drop 1).take t.max_data_length.num_bytes))]

/-- Witness for C6: a record claiming length 5 with only 1 trailing byte is
rejected. -/
theorem tlv_length_mismatch_witness :
    ([0x01, 0x05, 0x09] : List Nat).length ≠ 1 + (TLVPacket.mk .UINT8 .UINT8
        .FLOAT32).max_data_length.num_bytes +
      bytesToNatLE ((([0x01, 0x05, 0x09] : List Nat).drop 1).take
        (TLVPacket.mk .UINT8 .UINT8 .FLOAT32).max_data_length.num_bytes) ∧
    (TLVPacket.mk .UINT8 .UINT8 .FLOAT32).decode [0x01, 0x05, 0x09] .BYTEARRAY =
      .error (.valueError ("Packet length mismatch: expected " ++
        toString (1 + (TLVPacket.mk .UINT8 .UINT8 .FLOAT32).max_data_length.num_bytes +
          bytesToNatLE ((([0x01, 0x05, 0x09] : List Nat).drop 1).take
            (TLVPacket.mk .UINT8 .UINT8 .FLOAT32).max_data_length.num_bytes)) ++
        " bytes (type=1, length field=" ++
        toString (bytesToNatLE ((([0x01, 0x05, 0x09] : List Nat).drop 1).take
          (TLVPacket.mk .UINT8 .UINT8 .FLOAT32).max_data_length.num_bytes)) ++
        "), got " ++ toString ([0x01, 0x05, 0x09] : List Nat).length ++ " bytes.")) :=
  ⟨by decide,
   (tlv_length_mismatch (TLVPacket.mk .UINT8 .UINT8 .FLOAT32) [0x01, 0x05, 0x09]
      .BYTEARRAY (by decide)).1 (by decide)⟩

/-- C8 counterexample: both serializers reject a category mismatch with a
ValueError, not a TypeError — an integer serialized at a float format and a
float serialized at an unsigned-integer format. -/
theorem serialization_mismatch_counterexample :
    int_to_bytearray 5 .FLOAT32 =
      .error (.valueError "The format cannot be FLOAT32 or FLOAT64.") ∧
    float_to_bytearray ⟨[0, 0, 0, 0]⟩ .UINT8 =
      .error (.valueError "The precision must be FLOAT32 or FLOAT64.") := by
  decide

/-- C8 as amended: supplying a value of the wrong numeric category for a
format during value serialization is rejected with a ValueError-class
failure (`int_to_bytearray` rejects float formats, `float_to_bytearray`
rejects unsigned-integer formats). -/
theorem serialization_mismatch_valueerror (v : Nat) (fl : PyFloat)
    (f g : ValueFormat) (hf : f.is_float = true) (hg : g.is_uint = true) :
    int_to_bytearray v f =
      .error (.valueError "The format cannot be FLOAT32 or FLOAT64.") ∧
    float_to_bytearray fl g =
      .error (.valueError "The precision must be FLOAT32 or FLOAT64.") := by
  constructor
  · rw [int_to_bytearray, if_pos hf]
  · rw [float_to_bytearray, is_uint_not_is_float g hg]
    simp

/-- Witness for the amended C8. -/
theorem serialization_mismatch_valueerror_witness :
    int_to_bytearray 5 .FLOAT64 =
      .error (.valueError "The format cannot be FLOAT32 or FLOAT64.") ∧
    float_to_bytearray ⟨[1, 2, 3, 4]⟩ .UINT16 =
      .error (.valueError "The precision must be FLOAT32 or FLOAT64.") :=
  serialization_mismatch_valueerror 5 ⟨[1, 2, 3, 4]⟩ .FLOAT64 .UINT16
    (by decide) (by decide)

/-- C9 counterexample: decoding the zero-length record `[0x01, 0x00]` with
an integer target returns `(1, 0, 0)` without any error, although the
configured integer width (one byte) exceeds the zero available value
bytes — the integer path performs no width check. -/
theorem tlv_int_width_counterexample :
    (TLVPacket.mk .UINT8 .UINT8 .FLOAT32).decode [0x01, 0x00] .INT =
      .ok (1, 0, .int 0) := by
  decide

/-- C9 as amended: for a well-formed TLV packet, decoding with a float
target raises a ValueError exactly when the value byte count differs from
the configured float width; decoding with an integer target converts the
value bytes little-endian with no width check whatsoever; with no target
format the raw value bytes are returned unchanged. -/
theorem tlv_decode_value_conversion (t : TLVPacket) (pkt : List Nat)
    (hlen : 1 + t.max_data_length.num_bytes ≤ pkt.length)
    (hexact : pkt.length = 1 + t.max_data_length.num_bytes +
      bytesToNatLE ((pkt.drop 1).take t.max_data_length.num_bytes))
    (hfb : t.float_byte_size.is_float = true) :
    (t.decode pkt .BYTEARRAY = .ok (pkt.getD 0 0,
        bytesToNatLE ((pkt.drop 1).take t.max_data_length.num_bytes),
        .bytes (pkt.drop (t.max_data_length.num_bytes + 1)))) ∧
    (t.decode pkt .INT = .ok (pkt.getD 0 0,
        bytesToNatLE ((pkt.drop 1).take t.max_data_length.num_bytes),
        .int (bytesToNatLE (pkt.drop (t.max_data_length.num_bytes + 1))))) ∧
    ((pkt.drop (t.max_data_length.num_bytes + 1)).length ≠ t.float_byte_size.num_bytes →
      t.decode pkt .FLOAT = .error (.valueError ("Float value length mismatch: expected " ++
        toString t.float_byte_size.num_bytes ++ " bytes, got " ++
        toString (pkt.drop (t.max_data_length.num_bytes + 1)).length ++ "."))) ∧
    ((pkt.drop (t.max_data_length.num_bytes + 1)).length = t.float_byte_size.num_bytes →
      t.decode pkt .FLOAT = .ok (pkt.getD 0 0,
        bytesToNatLE ((pkt.drop 1).take t.max_data_length.num_bytes),
        .float ⟨pkt.drop (t.max_data_length.num_bytes + 1)⟩)) := by
  have hne : ¬pkt.length ≠ 1 + t.max_data_length.num_bytes +
      bytesToNatLE ((pkt.drop 1).take t.max_data_length.num_bytes) := by omega
  refine ⟨?_, ?_, ?_, ?_⟩
  · rw [TLVPacket.decode, if_neg (by omega)]
    simp only [if_neg hne]
  · rw [TLVPacket.decode, if_neg (by omega)]
    simp only [if_neg hne]
    rfl
  · intro h
    rw [TLVPacket.decode, if_neg (by omega)]
    simp only [if_neg hne, TLVPacket._decode_float, if_pos h, bind, Except.bind]
  · intro h
    rw [TLVPacket.decode, if_neg (by omega)]
    simp only [if_neg hne, TLVPacket._decode_float,
      if_neg (by omega : ¬(pkt.drop (t.max_data_length.num_bytes + 1)).length ≠
        t.float_byte_size.num_bytes),
      bytearray_to_float, hfb, if_pos, bind, Except.bind]

/-- Witness for the amended C9 at the packet `[0x01, 0x02, 0x07, 0x08]`. -/
theorem tlv_decode_value_conversion_witness :
    ((TLVPacket.mk .UINT8 .UINT8 .FLOAT32).decode [0x01, 0x02, 0x07, 0x08] .BYTEARRAY =
      .ok (1, 2, .bytes [0x07, 0x08])) ∧
    ((TLVPacket.mk .UINT8 .UINT8 .FLOAT32).decode [0x01, 0x02, 0x07, 0x08] .INT =
      .ok (1, 2, .int 0x0807)) ∧
    ((TLVPacket.mk .UINT8 .UINT8 .FLOAT32).decode [0x01, 0x02, 0x07, 0x08] .FLOAT =
      .error (.valueError "Float value length mismatch: expected 4 bytes, got 2.")) := by
  have h := tlv_decode_value_conversion (TLVPacket.mk .UINT8 .UINT8 .FLOAT32)
    [0x01, 0x02, 0x07, 0x08] (by decide) (by decide) (by decide)
  refine ⟨?_, ?_, ?_⟩
  · have := h.1
    simpa using this
  · have := h.2.1
    simpa using this
  · have := h.2.2.1 (by decide)
    simpa using this

end SerialProtocol
